import Mathlib

/-!
Shallow embedding of the `rust-storage-bench` workload harness
(`src/lib.rs`, `src/worker/db.rs`, `src/worker/main.rs`) and proofs about it.

Bytes are modelled as `List Nat`, machine integers as `Nat` with explicit
`% 2 ^ 32` (resp. `% 2 ^ 64`) where the Rust code wraps, and the key-value
store of every backend as an association list where the most recent insert
for a key wins.  The key a backend actually stores under is backend
dependent: the Persy branch keys its `"primary"` index on
`String::from_utf8_lossy(key)` (with `ValueMode::Replace`), so distinct
non-UTF-8 byte keys can collapse to one entry; every other branch keys on
the raw bytes.
-/

namespace StorageBench

/-- Byte strings (`&[u8]` / `Vec<u8>` in the Rust source). -/
abbrev Bytes := List Nat

/-- The backend enumeration from `src/lib.rs` (`enum Backend`), including the
feature-gated `Heed`, `RocksDb` and `CanopyDb` variants. -/
inductive Backend where
  | sled
  | fjall
  | persy
  | jammDb
  | redb
  | nebari
  | heed
  | rocksDb
  | canopyDb
deriving DecidableEq, Repr

/-- The store contents common to all backends: an association list, most
recent insert first. -/
abbrev Store := List (Bytes × Bytes)

/-- The value that `DatabaseWrapper::insert` in `src/worker/db.rs` actually
hands to the engine.  Every branch stores the `value` argument, except the
`Nebari` branch (lines 98-107), which executes
`let key = key.to_vec(); let value = key.to_vec();` and therefore stores the
key bytes as the value. -/
def storedValue (b : Backend) (key value : Bytes) : Bytes :=
  match b with
  | .nebari => key
  | _ => value

/-- Is `c` a UTF-8 continuation byte (`0x80..=0xBF`)? -/
def isUtf8Cont (c : Nat) : Bool :=
  128 ≤ c && c ≤ 191

/-- The range the *first* continuation byte of a multi-byte UTF-8 sequence
must lie in, given the leading byte: `0xE0` excludes overlong encodings,
`0xED` excludes surrogates, `0xF0` excludes overlongs and `0xF4` values
above U+10FFFF; all other leading bytes admit the full `0x80..=0xBF`. -/
def utf8FirstContRange (b : Nat) : Nat × Nat :=
  if b = 224 then (160, 191)
  else if b = 237 then (128, 159)
  else if b = 240 then (144, 191)
  else if b = 244 then (128, 143)
  else (128, 191)

/-- Is `c` inside the closed range `lohi`? -/
def inRange (lohi : Nat × Nat) (c : Nat) : Bool :=
  lohi.1 ≤ c && c ≤ lohi.2

/-- The UTF-8 encoding of U+FFFD, the replacement character. -/
def replacementChar : Bytes :=
  [239, 191, 189]

/-- The byte output of Rust's `String::from_utf8_lossy`: valid UTF-8
sequences are kept verbatim; each maximal invalid subpart (a lone invalid
byte, or a valid prefix of a sequence cut short by an inadmissible or
missing continuation, also at end of input) becomes one replacement
character, and decoding resumes at the offending byte.  `fuel` bounds the
number of steps; each step consumes at least one input byte, so the input
length is always enough fuel. -/
def utf8LossyAux : Nat → Bytes → Bytes
  | 0, _ => []
  | _ + 1, [] => []
  | fuel + 1, b :: rest =>
    if b < 128 then
      b :: utf8LossyAux fuel rest
    else if 194 ≤ b && b ≤ 223 then
      match rest with
      | c1 :: rest1 =>
        if isUtf8Cont c1 then b :: c1 :: utf8LossyAux fuel rest1
        else replacementChar ++ utf8LossyAux fuel rest
      | [] => replacementChar
    else if 224 ≤ b && b ≤ 239 then
      match rest with
      | c1 :: rest1 =>
        if inRange (utf8FirstContRange b) c1 then
          match rest1 with
          | c2 :: rest2 =>
            if isUtf8Cont c2 then b :: c1 :: c2 :: utf8LossyAux fuel rest2
            else replacementChar ++ utf8LossyAux fuel rest1
          | [] => replacementChar
        else replacementChar ++ utf8LossyAux fuel rest
      | [] => replacementChar
    else if 240 ≤ b && b ≤ 244 then
      match rest with
      | c1 :: rest1 =>
        if inRange (utf8FirstContRange b) c1 then
          match rest1 with
          | c2 :: rest2 =>
            if isUtf8Cont c2 then
              match rest2 with
              | c3 :: rest3 =>
                if isUtf8Cont c3 then
                  b :: c1 :: c2 :: c3 :: utf8LossyAux fuel rest3
                else replacementChar ++ utf8LossyAux fuel rest2
              | [] => replacementChar
            else replacementChar ++ utf8LossyAux fuel rest1
          | [] => replacementChar
        else replacementChar ++ utf8LossyAux fuel rest
      | [] => replacementChar
    else
      replacementChar ++ utf8LossyAux fuel rest

/-- `String::from_utf8_lossy(bs)`, as the bytes of the resulting string. -/
def utf8Lossy (bs : Bytes) : Bytes :=
  utf8LossyAux bs.length bs

/-- The key a backend actually stores and looks up under.  The Persy insert
branch (`src/worker/db.rs` lines 146-161) puts
`String::from_utf8_lossy(key).to_string()` into its `"primary"` index, and
the Persy get branch (lines 232-243) looks the same lossy string up; every
other branch uses the raw key bytes. -/
def storedKey (b : Backend) (key : Bytes) : Bytes :=
  match b with
  | .persy => utf8Lossy key
  | _ => key

/-- Inserting into the modelled store: the new pair shadows older entries
with the same stored key (`ValueMode::Replace` for Persy, plain overwrite
elsewhere). -/
def storeInsert (b : Backend) (st : Store) (key value : Bytes) : Store :=
  (storedKey b key, storedValue b key value) :: st

/-- Point lookup (`DatabaseWrapper::get`): first (most recent) entry for the
backend's stored key, `none` when absent. -/
def storeGet (b : Backend) (st : Store) (key : Bytes) : Option Bytes :=
  (st.find? (fun e => e.1 == storedKey b key)).map (fun e => e.2)

/-- The atomic counters of `DatabaseWrapper` (`src/worker/db.rs` lines 10-20,
plus the `scan_latency` accumulator that `src/worker/main.rs` lines 262 and
354-356 initialises and drains). -/
structure Counters where
  realDataSize : Nat
  writeOps : Nat
  readOps : Nat
  deleteOps : Nat
  scanOps : Nat
  writeLatency : Nat
  readLatency : Nat
  scanLatency : Nat
deriving DecidableEq, Repr

/-- All-zero counters (`Default::default()` at `src/worker/main.rs` 253-263). -/
def Counters.init : Counters :=
  ⟨0, 0, 0, 0, 0, 0, 0, 0⟩

/-- The amount added to the `write_latency` accumulator by one call of
`DatabaseWrapper::insert`, as a function of the elapsed time (in nanoseconds)
of the branch-local timer and of the whole-function timer.  The generic tail
(db.rs lines 198-201) adds `start.elapsed().as_nanos()`; the `RocksDb`
(lines 68-82) and `Heed` (lines 84-97) branches additionally add their inner
timer's `elapsed().as_micros()` (`= nanoseconds / 1000`, truncating). -/
def insertLatencyDelta (b : Backend) (innerNanos outerNanos : Nat) : Nat :=
  match b with
  | .rocksDb => innerNanos / 1000 + outerNanos
  | .heed => innerNanos / 1000 + outerNanos
  | _ => outerNanos

/-- The database-wrapper state: engine contents plus instrumentation. -/
structure DBState where
  store : Store
  counters : Counters

/-- `DatabaseWrapper::insert` (`src/worker/db.rs` lines 64-204): store the
pair, bump `write_latency` by the branch-dependent elapsed amount, bump
`write_ops` by one.  The `durable` flag only triggers engine sync calls and
does not change the stored data or the counters. -/
def dbInsert (b : Backend) (st : DBState) (key value : Bytes) (_durable : Bool)
    (innerNanos outerNanos : Nat) : DBState :=
  { store := storeInsert b st.store key value
    counters := { st.counters with
      writeLatency := st.counters.writeLatency + insertLatencyDelta b innerNanos outerNanos
      writeOps := st.counters.writeOps + 1 } }

/-- `DatabaseWrapper::get` (`src/worker/db.rs` lines 206-265): look the key
up (under the backend's stored key — the lossy string for Persy), bump
`read_latency` by the elapsed nanoseconds
(`start.elapsed().as_nanos()`, lines 257-260), bump `read_ops` by one. -/
def dbGet (b : Backend) (st : DBState) (key : Bytes) (elapsedNanos : Nat) :
    Option Bytes × DBState :=
  (storeGet b st.store key,
   { st with counters := { st.counters with
      readLatency := st.counters.readLatency + elapsedNanos
      readOps := st.counters.readOps + 1 } })

/-- The `map_key` closure of `src/worker/main.rs` lines 413-425: identity when
`random` is off, otherwise the 32-bit murmur avalanche
`h ^= h >> 16; h *= 0x85ebca6b; h ^= h >> 13; h *= 0xc2b2ae35; h ^= h >> 16`
on `Wrapping<u32>`. -/
def map_key (random : Bool) (k : Nat) : Nat :=
  if random then
    let h1 := k ^^^ (k >>> 16)
    let h2 := h1 * 0x85ebca6b % 2 ^ 32
    let h3 := h2 ^^^ (h2 >>> 13)
    let h4 := h3 * 0xc2b2ae35 % 2 ^ 32
    h4 ^^^ (h4 >>> 16)
  else
    k

/-- The state carried across metrics ticks (`prev_write_ops` etc.,
`src/worker/main.rs` lines 321-323 and 392-394). -/
structure TickPrev where
  prevWriteOps : Nat
  prevReadOps : Nat
  prevScanOps : Nat
deriving DecidableEq, Repr

/-- The interval-local averages of one `"metrics"` record
(`src/worker/main.rs` lines 362-364 and 387-389). -/
structure Snapshot where
  avgWriteLatency : Nat
  avgReadLatency : Nat
  avgScanLatency : Nat
deriving DecidableEq, Repr

/-- One tick of the metrics thread's latency accounting
(`src/worker/main.rs` lines 334-364 and 392-394): read the op counters,
drain the three latency accumulators (`fetch_min(0, ..)` returns the old
value and leaves `0` behind), and divide each drained sum by
`ops_since.max(1)`.  Returns the snapshot, the drained counters and the new
`prev_*` state. -/
def metricsTick (c : Counters) (p : TickPrev) :
    Snapshot × Counters × TickPrev :=
  let accWrite := c.writeLatency
  let accRead := c.readLatency
  let accScan := c.scanLatency
  let writeSince := c.writeOps - p.prevWriteOps
  let readSince := c.readOps - p.prevReadOps
  let scanSince := c.scanOps - p.prevScanOps
  ({ avgWriteLatency := accWrite / max writeSince 1
     avgReadLatency := accRead / max readSince 1
     avgScanLatency := accScan / max scanSince 1 },
   { c with writeLatency := 0, readLatency := 0, scanLatency := 0 },
   { prevWriteOps := c.writeOps, prevReadOps := c.readOps,
     prevScanOps := c.scanOps })

/-- Decimal digits of `n`, most significant first, with bounded fuel so that
the kernel can evaluate it (`natDigitsAux (n + 1) n` always has enough
fuel). -/
def natDigitsAux : Nat → Nat → List Nat
  | 0, _ => []
  | fuel + 1, n => if n < 10 then [n] else natDigitsAux fuel (n / 10) ++ [n % 10]

/-- Decimal digits of `n`, most significant first (`[0]` for zero), matching
Rust's `format!("{n}")` digit by digit. -/
def natDigits (n : Nat) : List Nat :=
  natDigitsAux (n + 1) n

/-- ASCII bytes of the decimal representation of `n`. -/
def decimalBytes (n : Nat) : Bytes :=
  (natDigits n).map (fun d => d + 48)

/-- Rust's `{:0>w}` format: left-pad with ASCII `'0'` to width `w`. -/
def zeroPad (w : Nat) (bs : Bytes) : Bytes :=
  List.replicate (w - bs.length) 48 ++ bs

/-- The partition label `format!("user{idx:0>2}")` used by every partitioned
workload (`src/worker/main.rs`, e.g. line 435). -/
def userLabel (idx : Nat) : Bytes :=
  [117, 115, 101, 114] ++ zeroPad 2 (decimalBytes idx)

/-- The zero-padded key `format!("{user_id}:{x:0>10}")` used by the load
phases and by every run phase except Task E's insert branch. -/
def paddedKey (idx x : Nat) : Bytes :=
  userLabel idx ++ [58] ++ zeroPad 10 (decimalBytes x)

/-- The unpadded key `format!("{user_id}:{x}")` of Task E's run-phase insert
(`src/worker/main.rs` line 696). -/
def unpaddedKey (idx x : Nat) : Bytes :=
  userLabel idx ++ [58] ++ decimalBytes x

/-- Lexicographic strict order on byte strings, as Rust compares `&[u8]`
(a strict prefix is smaller). -/
def lexLt : Bytes → Bytes → Bool
  | [], [] => false
  | [], _ :: _ => true
  | _ :: _, [] => false
  | x :: xs, y :: ys => if x < y then true else if x == y then lexLt xs ys else false

/-- `(x as u64).to_be_bytes()`: the eight big-endian bytes of `n % 2 ^ 64`
(Task C's keys, `src/worker/main.rs` line 563). -/
def u64BE (n : Nat) : Bytes :=
  [n / 2 ^ 56 % 256, n / 2 ^ 48 % 256, n / 2 ^ 40 % 256, n / 2 ^ 32 % 256,
   n / 2 ^ 24 % 256, n / 2 ^ 16 % 256, n / 2 ^ 8 % 256, n % 256]

/-- One operation issued against the database wrapper, recording exactly the
arguments the workload loops pass (`scan` also records the `limit`). -/
inductive Op where
  | insertOp (key : Bytes) (value : Bytes) (durable : Bool)
  | getOp (key : Bytes)
  | scanOp (startKey : Bytes) (limit : Nat)
deriving DecidableEq, Repr

/-- One iteration of Task D's run loop (`src/worker/main.rs` lines 621-642):
when the `f32` draw exceeds `0.95` (modelled by `insertBranch`), insert key
`user:{map_key(records):0>10}` and advance `records`; otherwise scan 10 items
from `user:{records.saturating_sub(10):0>10}` (no `map_key` on the scan
start). -/
def taskDIter (random : Bool) (idx records : Nat) (val : Bytes)
    (durable : Bool) (insertBranch : Bool) : Op × Nat :=
  if insertBranch then
    (Op.insertOp (paddedKey idx (map_key random records)) val durable, records + 1)
  else
    (Op.scanOp (paddedKey idx (records - 10)) 10, records)

/-- One iteration of Task E's run loop (`src/worker/main.rs` lines 688-708):
when the `f32` draw is below `0.95`, insert with the *unpadded* key
`format!("{user_id}:{x}")` and advance `records`; otherwise scan 10 items
from `user:{records.saturating_sub(11):0>10}`. -/
def taskEIter (random : Bool) (idx records : Nat) (val : Bytes)
    (durable : Bool) (insertBranch : Bool) : Op × Nat :=
  if insertBranch then
    (Op.insertOp (unpaddedKey idx (map_key random records)) val durable, records + 1)
  else
    (Op.scanOp (paddedKey idx (records - 11)) 10, records)

/-- Classification of one Task H iteration by its `rng.gen_range(0..100)`
draw (`src/worker/main.rs` lines 906-961): `0..50` point-read, `50..70`
scan, `70..` write with `is_insert = choice >= 80`. -/
inductive HKind where
  | pointRead
  | scan
  | writeOverwrite
  | writeAppend
deriving DecidableEq, Repr

/-- The Task H dispatch on the uniform draw `choice ∈ [0, 100)`. -/
def taskHKind (choice : Nat) : HKind :=
  if choice < 50 then .pointRead
  else if choice < 70 then .scan
  else if 80 ≤ choice then .writeAppend
  else .writeOverwrite

/-- One iteration of Task H's run loop (`src/worker/main.rs` lines 905-961),
with the zipfian draw `z ∈ [1, records - 1]` passed in.  Returns the issued
operation, the new `records` counter and the amount added to
`real_data_size`. -/
def taskHIter (random : Bool) (idx records : Nat) (val : Bytes)
    (durable : Bool) (choice z : Nat) : Op × Nat × Nat :=
  match taskHKind choice with
  | .pointRead =>
      (Op.getOp (paddedKey idx (map_key random (records - z))), records, 0)
  | .scan =>
      (Op.scanOp (paddedKey idx (map_key random (records - z - 10))) 10, records, 0)
  | .writeOverwrite =>
      (Op.insertOp (paddedKey idx (map_key random (records - z))) val durable,
       records, 0)
  | .writeAppend =>
      let key := paddedKey idx (map_key random records)
      (Op.insertOp key val durable, records + 1, key.length + val.length)

/-- The compressible branch of `fill_value` (`src/worker/main.rs` lines
44-50): while the destination slice is non-empty, draw
`start ∈ [0, corpus.len())` and copy `min(remaining, corpus.len() - start)`
bytes of `corpus[start..]` into it (`Write for &mut [u8]` copies the common
prefix and advances the slice).  `fuel` bounds the number of loop
iterations; `draws i` is the `i`-th `rng.gen_range(0..SHAKESPERE.len())`. -/
def fillBytes (corpus : Bytes) (draws : Nat → Nat) :
    Nat → Nat → Nat → Bytes
  | _, _, 0 => []
  | i, remaining, fuel + 1 =>
    if remaining = 0 then []
    else
      let chunk := (corpus.drop (draws i)).take remaining
      chunk ++ fillBytes corpus draws (i + 1) (remaining - chunk.length) fuel

/-- `fill_value` (`src/worker/main.rs` lines 42-54) acting on the buffer
`vec![0; value_size]`: the compressible branch runs the copy loop above with
`value_size` iterations of fuel (shown sufficient below); the random branch
`rng.fill_bytes(val)` overwrites each of the `value_size` positions with one
drawn byte. -/
def fill_value (compressible : Bool) (valueSize : Nat) (corpus : Bytes)
    (draws : Nat → Nat) (randomByte : Nat → Nat) : Bytes :=
  if compressible then fillBytes corpus draws 0 valueSize valueSize
  else (List.range valueSize).map randomByte

/-- Task C's key for sequence number `x`
(`src/worker/main.rs` lines 562-563): `(map_key(x) as u64).to_be_bytes()`. -/
def taskCKey (random : Bool) (x : Nat) : Bytes :=
  u64BE (map_key random x)

/-- One iteration of Task C's load phase (`src/worker/main.rs` lines
561-571): insert `(taskCKey x, valueAt x)` non-durably and add
`key.len() + val.len()` to `real_data_size`.  `valueAt x` stands for the
buffer `fill_value` produced on that iteration. -/
def taskCLoadStep (b : Backend) (random : Bool) (valueAt : Nat → Bytes)
    (st : DBState) (x : Nat) : DBState :=
  let key := taskCKey random x
  let val := valueAt x
  let st := dbInsert b st key val false 0 0
  { st with counters := { st.counters with
      realDataSize := st.counters.realDataSize + (key.length + val.length) } }

/-- Task C's load phase as the fold of `taskCLoadStep` over `0..items`. -/
def taskCLoad (b : Backend) (random : Bool) (valueAt : Nat → Bytes)
    (items : Nat) (st : DBState) : DBState :=
  (List.range items).foldl (taskCLoadStep b random valueAt) st

/-- The initial database-wrapper state: empty store, zero counters. -/
def DBState.init : DBState :=
  ⟨[], Counters.init⟩

/-- The metrics thread's sleep interval, in milliseconds
(`src/worker/main.rs` lines 404-408):
`Duration::from_secs_f32(args.minutes as f32 / 2.0)`.  For every `u16`
number of minutes, `minutes / 2.0` is exactly representable in `f32`
(half-integers below `2 ^ 17`), so the duration is exactly
`minutes * 500` milliseconds. -/
def metricsIntervalMillis (minutes : Nat) : Nat :=
  minutes * 1000 / 2

/-- `map_key true` as a self-map of the 32-bit integers (the `% 2 ^ 32` is
shown redundant below). -/
def mapKeyFin (x : Fin (2 ^ 32)) : Fin (2 ^ 32) :=
  ⟨map_key true x.val % 2 ^ 32, Nat.mod_lt _ (by norm_num)⟩

/-! ### Helper lemmas -/

theorem shiftRight_xor_distrib (a b n : Nat) :
    (a ^^^ b) >>> n = (a >>> n) ^^^ (b >>> n) := by
  apply Nat.eq_of_testBit_eq
  intro i
  simp [Nat.testBit_shiftRight, Nat.testBit_xor]

theorem shiftRight_eq_zero_of_lt32 {x : Nat} (h : x < 2 ^ 32) {n : Nat}
    (hn : 32 ≤ n) : x >>> n = 0 := by
  rw [Nat.shiftRight_eq_div_pow]
  exact Nat.div_eq_of_lt (lt_of_lt_of_le h (Nat.pow_le_pow_right (by norm_num) hn))

theorem shiftRight_le_self (m n : Nat) : m >>> n ≤ m := by
  rw [Nat.shiftRight_eq_div_pow]
  exact Nat.div_le_self m (2 ^ n)

/-- Applying `y ↦ y ^^^ (y >>> 16)` to `x ^^^ (x >>> 16)` recovers `x` on
32-bit inputs, so the first and last avalanche steps are involutions. -/
theorem xorShift16_id {x : Nat} (h : x < 2 ^ 32) :
    (x ^^^ (x >>> 16)) ^^^ ((x ^^^ (x >>> 16)) >>> 16) = x := by
  have h32 : (x >>> 16) >>> 16 = 0 := by
    rw [← Nat.shiftRight_add]
    exact shiftRight_eq_zero_of_lt32 h (by norm_num)
  rw [shiftRight_xor_distrib, h32, Nat.xor_zero, Nat.xor_assoc, Nat.xor_self,
    Nat.xor_zero]

theorem xorShift16_inj {a b : Nat} (ha : a < 2 ^ 32) (hb : b < 2 ^ 32)
    (h : a ^^^ (a >>> 16) = b ^^^ (b >>> 16)) : a = b := by
  have := xorShift16_id ha
  rw [h, xorShift16_id hb] at this
  exact this.symm

/-- `y ↦ y ^^^ (y >>> 13) ^^^ (y >>> 26)` inverts the middle avalanche step
`x ↦ x ^^^ (x >>> 13)` on 32-bit inputs. -/
theorem xorShift13_id {x : Nat} (h : x < 2 ^ 32) :
    (x ^^^ (x >>> 13)) ^^^ ((x ^^^ (x >>> 13)) >>> 13) ^^^
      ((x ^^^ (x >>> 13)) >>> 26) = x := by
  have h39 : (x >>> 13) >>> 26 = 0 := by
    rw [← Nat.shiftRight_add]
    exact shiftRight_eq_zero_of_lt32 h (by norm_num)
  have h1326 : (x >>> 13) >>> 13 = x >>> 26 := by
    rw [← Nat.shiftRight_add]
  rw [shiftRight_xor_distrib, shiftRight_xor_distrib, h1326, h39, Nat.xor_zero,
    Nat.xor_assoc, Nat.xor_assoc, ← Nat.xor_assoc (x >>> 13) _ _,
    ← Nat.xor_assoc (x >>> 13) (x >>> 13) _, Nat.xor_self, Nat.zero_xor,
    Nat.xor_self, Nat.xor_zero]

theorem xorShift13_inj {a b : Nat} (ha : a < 2 ^ 32) (hb : b < 2 ^ 32)
    (h : a ^^^ (a >>> 13) = b ^^^ (b >>> 13)) : a = b := by
  have := xorShift13_id ha
  rw [h, xorShift13_id hb] at this
  exact this.symm

/-- Multiplication by a constant coprime to `2 ^ 32` is injective modulo
`2 ^ 32`. -/
theorem mul_mod32_inj {c : Nat} (hc : Nat.gcd (2 ^ 32) c = 1) {a b : Nat}
    (ha : a < 2 ^ 32) (hb : b < 2 ^ 32)
    (h : a * c % 2 ^ 32 = b * c % 2 ^ 32) : a = b := by
  have hmod : a ≡ b [MOD 2 ^ 32] := Nat.ModEq.cancel_right_of_coprime hc h
  calc a = a % 2 ^ 32 := (Nat.mod_eq_of_lt ha).symm
    _ = b % 2 ^ 32 := hmod
    _ = b := Nat.mod_eq_of_lt hb

theorem xor_shiftRight_lt32 {x : Nat} (h : x < 2 ^ 32) (n : Nat) :
    x ^^^ (x >>> n) < 2 ^ 32 :=
  Nat.xor_lt_two_pow h (lt_of_le_of_lt (shiftRight_le_self x n) h)

/-- Scrambled `map_key` always lands in the 32-bit range (its last step xors
a reduced value with a right shift of itself). -/
theorem map_key_true_lt (k : Nat) : map_key true k < 2 ^ 32 := by
  unfold map_key
  simp only [if_pos rfl]
  exact xor_shiftRight_lt32 (Nat.mod_lt _ (by norm_num)) 16

/-- Scrambled `map_key` is injective on the 32-bit integers: every avalanche
step is. -/
theorem map_key_true_inj {a b : Nat} (ha : a < 2 ^ 32) (hb : b < 2 ^ 32)
    (h : map_key true a = map_key true b) : a = b := by
  unfold map_key at h
  simp only [if_pos rfl] at h
  have ha1 : a ^^^ (a >>> 16) < 2 ^ 32 := xor_shiftRight_lt32 ha 16
  have hb1 : b ^^^ (b >>> 16) < 2 ^ 32 := xor_shiftRight_lt32 hb 16
  have ha2 : (a ^^^ (a >>> 16)) * 0x85ebca6b % 2 ^ 32 < 2 ^ 32 :=
    Nat.mod_lt _ (by norm_num)
  have hb2 : (b ^^^ (b >>> 16)) * 0x85ebca6b % 2 ^ 32 < 2 ^ 32 :=
    Nat.mod_lt _ (by norm_num)
  have ha3 := xor_shiftRight_lt32 ha2 13
  have hb3 := xor_shiftRight_lt32 hb2 13
  have ha4 : (((a ^^^ (a >>> 16)) * 0x85ebca6b % 2 ^ 32) ^^^
      (((a ^^^ (a >>> 16)) * 0x85ebca6b % 2 ^ 32) >>> 13)) * 0xc2b2ae35 % 2 ^ 32
      < 2 ^ 32 := Nat.mod_lt _ (by norm_num)
  have hb4 : (((b ^^^ (b >>> 16)) * 0x85ebca6b % 2 ^ 32) ^^^
      (((b ^^^ (b >>> 16)) * 0x85ebca6b % 2 ^ 32) >>> 13)) * 0xc2b2ae35 % 2 ^ 32
      < 2 ^ 32 := Nat.mod_lt _ (by norm_num)
  have h4 := xorShift16_inj ha4 hb4 h
  have h3 := mul_mod32_inj (by decide) ha3 hb3 h4
  have h2 := xorShift13_inj ha2 hb2 h3
  have h1 := mul_mod32_inj (by decide) ha1 hb1 h2
  exact xorShift16_inj ha hb h1

theorem mapKeyFin_injective : Function.Injective mapKeyFin := by
  intro x y hxy
  apply Fin.ext
  apply map_key_true_inj x.isLt y.isLt
  have hx := Nat.mod_eq_of_lt (map_key_true_lt x.val)
  have hy := Nat.mod_eq_of_lt (map_key_true_lt y.val)
  have := congrArg Fin.val hxy
  simp only [mapKeyFin, hx, hy] at this
  exact this

/-- Scrambled `map_key` is surjective onto the 32-bit integers. -/
theorem map_key_true_surj {y : Nat} (hy : y < 2 ^ 32) :
    ∃ x, x < 2 ^ 32 ∧ map_key true x = y := by
  have hbij : Function.Bijective mapKeyFin :=
    Finite.injective_iff_bijective.mp mapKeyFin_injective
  obtain ⟨x, hx⟩ := hbij.surjective ⟨y, hy⟩
  refine ⟨x.val, x.isLt, ?_⟩
  have hval := congrArg Fin.val hx
  simp only [mapKeyFin] at hval
  rw [Nat.mod_eq_of_lt (map_key_true_lt x.val)] at hval
  exact hval

/-- `map_key` is injective on 32-bit inputs in both layout modes. -/
theorem map_key_inj (random : Bool) {a b : Nat} (ha : a < 2 ^ 32)
    (hb : b < 2 ^ 32) (h : map_key random a = map_key random b) : a = b := by
  cases random with
  | false => simpa [map_key] using h
  | true => exact map_key_true_inj ha hb h

/-- The eight big-endian bytes determine the 64-bit value. -/
theorem u64BE_inj {n m : Nat} (hn : n < 2 ^ 64) (hm : m < 2 ^ 64)
    (h : u64BE n = u64BE m) : n = m := by
  simp only [u64BE, List.cons.injEq, and_true] at h
  omega

/-- `map_key` keeps 32-bit inputs 32-bit in both modes. -/
theorem map_key_lt (random : Bool) {k : Nat} (h : k < 2 ^ 32) :
    map_key random k < 2 ^ 32 := by
  cases random with
  | false => simpa [map_key] using h
  | true => exact map_key_true_lt k

theorem taskCKey_length (random : Bool) (x : Nat) :
    (taskCKey random x).length = 8 := by
  simp [taskCKey, u64BE]

/-- Task C's keys are pairwise distinct over 32-bit sequence numbers. -/
theorem taskCKey_inj (random : Bool) {x y : Nat} (hx : x < 2 ^ 32)
    (hy : y < 2 ^ 32) (h : taskCKey random x = taskCKey random y) : x = y := by
  apply map_key_inj random hx hy
  exact u64BE_inj
    (lt_trans (map_key_lt random hx) (by norm_num))
    (lt_trans (map_key_lt random hy) (by norm_num)) h

theorem storeGet_cons (b : Backend) (k w q : Bytes) (s : Store) :
    storeGet b ((k, w) :: s) q
      = if k == storedKey b q then some w else storeGet b s q := by
  by_cases h : k == storedKey b q
  · simp [storeGet, List.find?_cons_of_pos, h]
  · simp only [Bool.not_eq_true] at h
    simp [storeGet, List.find?_cons_of_neg, h]

theorem taskCLoad_succ (b : Backend) (random : Bool) (valueAt : Nat → Bytes)
    (items : Nat) (st : DBState) :
    taskCLoad b random valueAt (items + 1) st
      = taskCLoadStep b random valueAt (taskCLoad b random valueAt items st)
          items := by
  simp [taskCLoad, List.range_succ]

/-- The load phase adds `items * (8 + L)` to `real_data_size` when every
generated value has length `L` (Task C's keys are always 8 bytes). -/
theorem taskCLoad_realDataSize (b : Backend) (random : Bool)
    (valueAt : Nat → Bytes) (L : Nat) (hv : ∀ x, (valueAt x).length = L) :
    ∀ items st, (taskCLoad b random valueAt items st).counters.realDataSize
      = st.counters.realDataSize + items * (8 + L) := by
  intro items
  induction items with
  | zero => intro st; simp [taskCLoad]
  | succ n ih =>
    intro st
    rw [taskCLoad_succ, taskCLoadStep]
    simp only [dbInsert]
    rw [ih st, taskCKey_length, hv n]
    ring

/-- After the load phase, a point read of the `x`-th key finds an entry:
the value some loaded record `y` stored under the same backend key.  For
backends keying on raw bytes, `y` can only be `x` (the raw keys are
pairwise distinct, `taskCKey_inj`), but for Persy the lossy-string keys of
distinct records can collide and the most recent colliding writer wins —
the lemma therefore only names *some* loaded `y`. -/
theorem taskCLoad_get (b : Backend) (random : Bool) (valueAt : Nat → Bytes) :
    ∀ items st x, x < items →
      ∃ y, y < items ∧
        storeGet b (taskCLoad b random valueAt items st).store
            (taskCKey random x)
          = some (storedValue b (taskCKey random y) (valueAt y)) := by
  intro items
  induction items with
  | zero => intro st x hx; omega
  | succ n ih =>
    intro st x hx
    rw [taskCLoad_succ, taskCLoadStep]
    simp only [dbInsert, storeInsert]
    rw [storeGet_cons]
    by_cases hk : (storedKey b (taskCKey random n)
        == storedKey b (taskCKey random x)) = true
    · rw [if_pos hk]
      exact ⟨n, by omega, rfl⟩
    · rw [if_neg hk]
      have hxn : x ≠ n := by
        intro h
        subst h
        simp at hk
      obtain ⟨y, hy, heq⟩ := ih st x (by omega)
      exact ⟨y, by omega, heq⟩

theorem storedValue_of_ne_nebari {b : Backend} (hb : b ≠ Backend.nebari)
    (k v : Bytes) : storedValue b k v = v := by
  cases b <;> simp_all [storedValue]

/-- The Persy branch's lossy-string keying collapses distinct non-UTF-8
keys: Task C's keys for sequence numbers 128 and 255 (a lone invalid byte
after seven zeros) both decode to `"\x00…\x00�"`, so after loading
both, a point read of key 128 returns the value written for key 255. -/
theorem persy_lossy_key_collision :
    storedKey Backend.persy (taskCKey false 128)
        = storedKey Backend.persy (taskCKey false 255)
    ∧ storeGet Backend.persy
        (storeInsert Backend.persy
          (storeInsert Backend.persy [] (taskCKey false 128) [1])
          (taskCKey false 255) [2])
        (taskCKey false 128) = some [2]
    ∧ storeGet Backend.fjall
        (storeInsert Backend.fjall
          (storeInsert Backend.fjall [] (taskCKey false 128) [1])
          (taskCKey false 255) [2])
        (taskCKey false 128) = some [1] := by
  refine ⟨by decide, by decide, by decide⟩

/-! ### Claim theorems -/

/-- Claim C1 — code bug.  The claim says a `get(key)` issued immediately
after `insert(key, value, ..)` returns `some value` for every backend.  The
Nebari branch of `DatabaseWrapper::insert` (`src/worker/db.rs` lines 98-107)
builds the stored value from the key (`let value = key.to_vec();`, shadowing
the `value` parameter, which that branch never reads), so at the failing
input — backend Nebari, key `[0]`, value `[1]` — the immediate read-back
returns `some [0]` (the key bytes) instead of `some [1]`.  The same input
round-trips correctly through the Fjall branch. -/
theorem C1_nebari_roundtrip_bug :
    (dbGet Backend.nebari
        (dbInsert Backend.nebari DBState.init [0] [1] false 0 0) [0] 0).1
        = some [0]
    ∧ some ([0] : Bytes) ≠ some ([1] : Bytes)
    ∧ (dbGet Backend.fjall
        (dbInsert Backend.fjall DBState.init [0] [1] false 0 0) [0] 0).1
        = some [1] := by
  refine ⟨by decide, by decide, by decide⟩

/-- Claim C5 — counterexample.  The claim says each insert adds the
operation's elapsed *microseconds* to `write_latency`.  The generic tail of
`DatabaseWrapper::insert` (`src/worker/db.rs` lines 198-201) adds
`start.elapsed().as_nanos()`: an insert through the Fjall branch whose
elapsed time is 1500 ns adds 1500, not the 1 µs (`1500 / 1000`) the claim
dictates. -/
theorem C5_latency_unit_counterexample :
    insertLatencyDelta Backend.fjall 1500 1500 = 1500
    ∧ (1500 : Nat) ≠ 1500 / 1000 := by
  decide

/-- Claim C5 — amended.  The latency accumulators record elapsed
*nanoseconds*: each insert adds the whole-function elapsed nanoseconds to
`write_latency` once — except the `RocksDb` and `Heed` branches, which
additionally add their inner timer's elapsed microseconds — and each insert
bumps `write_ops` exactly once; each get adds the elapsed nanoseconds to
`read_latency` exactly once and bumps `read_ops` exactly once. -/
theorem C5_latency_nanos_amended (b : Backend) (st : DBState) (k v : Bytes)
    (d : Bool) (innerNs outerNs elapsedNs : Nat) :
    ((dbInsert b st k v d innerNs outerNs).counters.writeLatency
        = st.counters.writeLatency +
            (if b = Backend.rocksDb ∨ b = Backend.heed
             then innerNs / 1000 + outerNs else outerNs))
    ∧ (dbInsert b st k v d innerNs outerNs).counters.writeOps
        = st.counters.writeOps + 1
    ∧ (dbGet b st k elapsedNs).2.counters.readLatency
        = st.counters.readLatency + elapsedNs
    ∧ (dbGet b st k elapsedNs).2.counters.readOps
        = st.counters.readOps + 1 := by
  refine ⟨?_, rfl, rfl, rfl⟩
  cases b <;> simp [dbInsert, insertLatencyDelta]

/-- Claim C7 — confirmed.  At every metrics tick, each average latency equals
the drained accumulator divided by `max(1, ops of that kind since the
previous tick)`; the divisor is at least 1, and in an idle interval
(no writes since the previous tick) the average write latency is the drained
sum divided by one, not a division fault. -/
theorem C7_avg_latency_guarded (c : Counters) (p : TickPrev) :
    ((metricsTick c p).1.avgWriteLatency
        = c.writeLatency / max (c.writeOps - p.prevWriteOps) 1
    ∧ (metricsTick c p).1.avgReadLatency
        = c.readLatency / max (c.readOps - p.prevReadOps) 1
    ∧ (metricsTick c p).1.avgScanLatency
        = c.scanLatency / max (c.scanOps - p.prevScanOps) 1)
    ∧ 1 ≤ max (c.writeOps - p.prevWriteOps) 1
    ∧ (c.writeOps = p.prevWriteOps →
        (metricsTick c p).1.avgWriteLatency = c.writeLatency) := by
  refine ⟨⟨rfl, rfl, rfl⟩, le_max_right _ _, ?_⟩
  intro h
  simp [metricsTick, h]

/-- Witness for C7, at a concrete idle tick. -/
theorem C7_avg_latency_guarded_witness :
    Counters.init.writeOps = TickPrev.prevWriteOps ⟨0, 0, 0⟩
    ∧ (metricsTick Counters.init ⟨0, 0, 0⟩).1.avgWriteLatency
        = Counters.init.writeLatency :=
  ⟨rfl, (C7_avg_latency_guarded Counters.init ⟨0, 0, 0⟩).2.2 rfl⟩

/-- Claim C8 — confirmed.  `map_key` is a pure function of the layout mode
and the input, hence deterministic; in monotonic mode (`random = false`) it
returns its input unchanged; and in scrambled mode it is a bijection on the
32-bit integers — injective (no two distinct inputs collide) and surjective
onto the 32-bit range. -/
theorem C8_map_key_properties :
    (∀ k, map_key false k = k)
    ∧ (∀ a b, a < 2 ^ 32 → b < 2 ^ 32 →
        map_key true a = map_key true b → a = b)
    ∧ (∀ y, y < 2 ^ 32 → ∃ x, x < 2 ^ 32 ∧ map_key true x = y) :=
  ⟨fun _ => rfl,
   fun _ _ ha hb h => map_key_true_inj ha hb h,
   fun _ hy => map_key_true_surj hy⟩

/-- Witness for C8 at concrete inputs. -/
theorem C8_map_key_properties_witness :
    map_key false 7 = 7 ∧ (3 : Nat) = 3 :=
  ⟨C8_map_key_properties.1 7,
   C8_map_key_properties.2.1 3 3 (by decide) (by decide) rfl⟩

/-- Claim C2 — counterexample.  Task C's keys are the eight big-endian bytes
of `map_key(x) as u64` (`src/worker/main.rs` line 563), so loading 1000 items
of 100 bytes adds `1000 * (8 + 100) = 108000` to `real_data_size` — not
`1000 * (key_size + 100)` with the configured `key_size` (default 64, lib.rs
even carries a `FIXME: this isn't being respected` on it), which would be
164000. -/
theorem C2_key_size_counterexample :
    (taskCLoad Backend.fjall false (fun _ => List.replicate 100 0) 1000
        DBState.init).counters.realDataSize = 108000
    ∧ (108000 : Nat) ≠ 1000 * (64 + 100) := by
  constructor
  · rw [taskCLoad_realDataSize Backend.fjall false _ 100
      (fun _ => List.length_replicate ..)]
    simp [DBState.init, Counters.init]
  · decide

/-- Claim C2 — amended.  With workload C, `items = 1000` and
`value_size = 100`, after the load phase `real_data_size` equals
`1000 * (8 + 100)` — 8 being the length of the raw `u64` big-endian key;
the configured `key_size` plays no role — and a point read of each of the
1000 loaded keys succeeds and returns a 100-byte value, for every backend
except Nebari (whose insert stores the 8-byte key bytes instead, claim C1).
For Persy the value returned can be that of a colliding key
(`persy_lossy_key_collision`), but it is still one of the loaded 100-byte
values. -/
theorem C2_taskC_load_amended (b : Backend) (random : Bool)
    (valueAt : Nat → Bytes) (hb : b ≠ Backend.nebari)
    (hv : ∀ x, (valueAt x).length = 100) :
    (taskCLoad b random valueAt 1000 DBState.init).counters.realDataSize
        = 1000 * (8 + 100)
    ∧ ∀ x, x < 1000 →
        ∃ v, storeGet b (taskCLoad b random valueAt 1000 DBState.init).store
            (taskCKey random x) = some v
        ∧ v.length = 100 := by
  constructor
  · rw [taskCLoad_realDataSize b random valueAt 100 hv]
    simp [DBState.init, Counters.init]
  · intro x hx
    obtain ⟨y, _, heq⟩ := taskCLoad_get b random valueAt 1000 DBState.init x hx
    refine ⟨valueAt y, ?_, hv y⟩
    rw [heq, storedValue_of_ne_nebari hb]

/-- Witness for C2's amended theorem: backend Persy (the lossy-keyed one),
constant 100-byte values. -/
theorem C2_taskC_load_amended_witness :
    (taskCLoad Backend.persy false (fun _ => List.replicate 100 7) 1000
        DBState.init).counters.realDataSize = 1000 * (8 + 100)
    ∧ ∃ v, storeGet Backend.persy
          (taskCLoad Backend.persy false (fun _ => List.replicate 100 7)
            1000 DBState.init).store (taskCKey false 5)
        = some v ∧ v.length = 100 :=
  ⟨(C2_taskC_load_amended Backend.persy false _ (by decide)
      (fun _ => List.length_replicate ..)).1,
   (C2_taskC_load_amended Backend.persy false _ (by decide)
      (fun _ => List.length_replicate ..)).2 5 (by decide)⟩

/-- Claim C3 — counterexample.  Task H's write branch
(`src/worker/main.rs` lines 937-960) sets `is_insert = choice >= 80`, so of
the 100 equally likely draws, 20 — not the claimed 10 — are appends. -/
theorem C3_append_count_counterexample :
    (List.range 100).countP
        (fun c => decide (taskHKind c = HKind.writeAppend)) = 20
    ∧ (20 : Nat) ≠ 10 := by
  decide

/-- Claim C3 — amended.  Each Task H iteration draws uniformly over 100
outcomes: 50 are point reads, 20 are scans with limit 10, 30 are writes —
of which 20 (draws 80-99) append a new record, advancing the stream's record
counter and `real_data_size`, and 10 (draws 70-79) overwrite a recently
inserted key (`records - z` for a zipfian `z ≥ 1`), leaving both counters
unchanged. -/
theorem C3_taskH_mix_amended (random : Bool) (idx records : Nat) (val : Bytes)
    (durable : Bool) (choice z : Nat) :
    ((List.range 100).countP
        (fun c => decide (taskHKind c = HKind.pointRead)) = 50
    ∧ (List.range 100).countP
        (fun c => decide (taskHKind c = HKind.scan)) = 20
    ∧ (List.range 100).countP
        (fun c => decide (taskHKind c = HKind.writeAppend
            ∨ taskHKind c = HKind.writeOverwrite)) = 30
    ∧ (List.range 100).countP
        (fun c => decide (taskHKind c = HKind.writeAppend)) = 20
    ∧ (List.range 100).countP
        (fun c => decide (taskHKind c = HKind.writeOverwrite)) = 10)
    ∧ (taskHKind choice = HKind.pointRead →
        taskHIter random idx records val durable choice z
          = (Op.getOp (paddedKey idx (map_key random (records - z))),
             records, 0))
    ∧ (taskHKind choice = HKind.scan →
        taskHIter random idx records val durable choice z
          = (Op.scanOp (paddedKey idx (map_key random (records - z - 10))) 10,
             records, 0))
    ∧ (taskHKind choice = HKind.writeAppend →
        taskHIter random idx records val durable choice z
          = (Op.insertOp (paddedKey idx (map_key random records)) val durable,
             records + 1,
             (paddedKey idx (map_key random records)).length + val.length))
    ∧ (taskHKind choice = HKind.writeOverwrite → 1 ≤ z → z ≤ records →
        taskHIter random idx records val durable choice z
          = (Op.insertOp (paddedKey idx (map_key random (records - z))) val
               durable, records, 0)
          ∧ records - z < records) := by
  refine ⟨by decide, ?_, ?_, ?_, ?_⟩
  · intro h; simp [taskHIter, h]
  · intro h; simp [taskHIter, h]
  · intro h; simp [taskHIter, h]
  · intro h hz hzr
    refine ⟨by simp [taskHIter, h], by omega⟩

/-- Witness for C3's amended theorem: draws 30 (read), 55 (scan), 85
(append) and 75 (overwrite) at `records = 100`, `z = 5`. -/
theorem C3_taskH_mix_amended_witness :
    taskHIter false 0 100 [1] false 55 5
      = (Op.scanOp (paddedKey 0 (map_key false (100 - 5 - 10))) 10, 100, 0)
    ∧ (taskHIter false 0 100 [1] false 75 5
        = (Op.insertOp (paddedKey 0 (map_key false (100 - 5))) [1] false,
           100, 0)
      ∧ 100 - 5 < 100) :=
  ⟨(C3_taskH_mix_amended false 0 100 [1] false 55 5).2.2.1 (by decide),
   (C3_taskH_mix_amended false 0 100 [1] false 75 5).2.2.2.2 (by decide)
     (by decide) (by decide)⟩

/-- Claim C4 — code bug.  Every load phase and every other run phase format
partitioned keys as `user{idx:0>2}:{x:0>10}`, but Task E's run-phase insert
(`src/worker/main.rs` line 696) formats `format!("{user_id}:{x}")` without
zero padding.  At the failing input — a Task E insert with record number 10
after records 0-9 — the produced key `user00:10` differs from the padded
convention and sorts lexicographically *before* the key for record number 5
(`user00:5`), violating the claimed order `key(5) < key(10)`; the padded
keys for 5 and 10 do sort correctly. -/
theorem C4_taskE_key_formatting_bug :
    (taskEIter false 0 10 [] false true).1
        = Op.insertOp (unpaddedKey 0 10) [] false
    ∧ unpaddedKey 0 10 ≠ paddedKey 0 10
    ∧ lexLt (unpaddedKey 0 5) (unpaddedKey 0 10) = false
    ∧ lexLt (unpaddedKey 0 10) (unpaddedKey 0 5) = true
    ∧ lexLt (paddedKey 0 5) (paddedKey 0 10) = true := by
  refine ⟨by decide, by decide, by decide, by decide, by decide⟩

/-- Claim C6 — counterexample.  Task E's scan branch
(`src/worker/main.rs` line 704) starts at `records.saturating_sub(11)`, not
`records.saturating_sub(10)`: at `records = 100` the scan starts at record
89, not 90 as the claim states. -/
theorem C6_scan_start_counterexample :
    (taskEIter false 0 100 [] false false).1
        = Op.scanOp (paddedKey 0 89) 10
    ∧ (taskEIter false 0 100 [] false false).1
        ≠ Op.scanOp (paddedKey 0 (100 - 10)) 10 := by
  refine ⟨by decide, by decide⟩

/-- Claim C6 — amended.  Every scan Task D issues uses limit 10 and starts at
the key numbered `records.saturating_sub(10)`; every scan Task E issues uses
limit 10 but starts at `records.saturating_sub(11)` — eleven positions
behind the stream's counter, not ten. -/
theorem C6_scan_start_amended (random : Bool) (idx r : Nat) (v : Bytes)
    (d : Bool) (br : Bool) (k : Bytes) (l : Nat) :
    ((taskDIter random idx r v d br).1 = Op.scanOp k l →
      k = paddedKey idx (r - 10) ∧ l = 10)
    ∧ ((taskEIter random idx r v d br).1 = Op.scanOp k l →
      k = paddedKey idx (r - 11) ∧ l = 10) := by
  constructor
  · intro h
    cases br <;> simp [taskDIter] at h
    exact ⟨h.1.symm, h.2.symm⟩
  · intro h
    cases br <;> simp [taskEIter] at h
    exact ⟨h.1.symm, h.2.symm⟩

/-- Witness for C6's amended theorem, at `records = 100`. -/
theorem C6_scan_start_amended_witness :
    paddedKey 0 90 = paddedKey 0 (100 - 10) ∧ (10 : Nat) = 10 :=
  (C6_scan_start_amended false 0 100 [] false false (paddedKey 0 90) 10).1
    (by decide)

/-- Claim C9 — counterexample.  The claim says the sampling interval is the
run duration divided by 120 but never less than one second.  The code
(`src/worker/main.rs` lines 404-408) sleeps `minutes / 2` seconds with no
floor: at the default run duration of 1 minute the interval is 500 ms,
below one second. -/
theorem C9_no_minimum_counterexample :
    metricsIntervalMillis 1 = 500 ∧ ¬ 1000 ≤ metricsIntervalMillis 1 := by
  decide

/-- Claim C9 — amended.  The sampling interval equals the total run duration
divided by 120 (`minutes / 2` seconds is `minutes * 60000 / 120`
milliseconds), with no one-second minimum. -/
theorem C9_interval_amended (minutes : Nat) :
    metricsIntervalMillis minutes = minutes * 60000 / 120 := by
  rw [metricsIntervalMillis,
    Nat.mul_div_assoc _ (by norm_num : (2 : Nat) ∣ 1000),
    Nat.mul_div_assoc _ (by norm_num : (120 : Nat) ∣ 60000)]

/-- `value_size` iterations of fuel always suffice for the copy loop: every
iteration writes at least one byte (the drawn corpus suffix is non-empty),
so when the loop is entered with `remaining ≤ fuel` it fills exactly
`remaining` bytes — in particular the Rust `while` loop terminates. -/
theorem fillBytes_length (corpus : Bytes) (draws : Nat → Nat)
    (hdraws : ∀ j, draws j < corpus.length) :
    ∀ fuel i remaining, remaining ≤ fuel →
      (fillBytes corpus draws i remaining fuel).length = remaining := by
  intro fuel
  induction fuel with
  | zero =>
    intro i remaining h
    interval_cases remaining
    rfl
  | succ n ih =>
    intro i remaining h
    by_cases h0 : remaining = 0
    · subst h0; simp [fillBytes]
    · have hchunk : ((corpus.drop (draws i)).take remaining).length
          = min remaining (corpus.length - draws i) := by
        simp [List.length_take, List.length_drop]
      have hpos : 1 ≤ ((corpus.drop (draws i)).take remaining).length := by
        rw [hchunk]
        have := hdraws i
        omega
      have hle : ((corpus.drop (draws i)).take remaining).length
          ≤ remaining := by
        rw [hchunk]; omega
      rw [fillBytes, if_neg h0]
      rw [List.length_append,
        ih (i + 1) (remaining - ((corpus.drop (draws i)).take remaining).length)
          (by omega)]
      omega

/-- Claim C10 — confirmed.  For every `value_size` and both compressibility
modes, `fill_value` produces a buffer of exactly `value_size` bytes, and in
the compressible branch each loop iteration writes at least one byte because
the drawn corpus suffix `corpus[start..]` (with `start < corpus.len()`, the
postcondition of `gen_range(0..corpus.len())`) is non-empty — which is
exactly why the loop terminates within `value_size` iterations
(`fillBytes_length`). -/
theorem C10_fill_value_length (compressible : Bool) (valueSize : Nat)
    (corpus : Bytes) (draws : Nat → Nat) (randomByte : Nat → Nat)
    (hdraws : ∀ j, draws j < corpus.length) :
    (fill_value compressible valueSize corpus draws randomByte).length
        = valueSize
    ∧ ∀ i remaining, 1 ≤ remaining →
        1 ≤ ((corpus.drop (draws i)).take remaining).length := by
  constructor
  · cases compressible with
    | false => simp [fill_value]
    | true =>
      simp only [fill_value, if_pos rfl]
      exact fillBytes_length corpus draws hdraws valueSize 0 valueSize
        le_rfl
  · intro i remaining hr
    have := hdraws i
    simp only [List.length_take, List.length_drop]
    omega

/-- Witness for C10: a one-byte corpus, all draws zero, `value_size = 3`. -/
theorem C10_fill_value_length_witness :
    (fill_value true 3 [65] (fun _ => 0) (fun _ => 0)).length = 3 :=
  (C10_fill_value_length true 3 [65] (fun _ => 0) (fun _ => 0)
    (fun _ => Nat.one_pos)).1

end StorageBench
